import Mathlib

/-!
Shallow embedding of `kconfigtest.py`, the differential test harness for the
kconfiglib configuration-resolution engine.  The embedding covers the pieces
the verified claims are about: the per-symbol mutation rule of the all-no and
all-yes fixed-point loops (`test_all_no` / `test_all_yes`), the snapshot
comparator `equal_confs`, the defconfig cross-validation orchestration
(`run_tests` / `test_defconfig`), the process-wide pass/fail ledger
(`_all_ok` / `fail` / `all_ok`), and the syntax-error scenario of
`test_call_all`.  The kconfiglib engine itself is not part of the sources; the
few engine facts needed (the tristate order used by `tri_less`, and the
expression evaluator raising a distinct syntax-error condition) are modelled
from the spec and marked as such.
-/

namespace Kconfigtest

/-- Tristate value domain of the configuration engine: the three values a
bool/tristate symbol may take, totally ordered n < m < y. -/
inductive Tri where
  | n
  | m
  | y
deriving DecidableEq, Repr, Fintype

/-- Numeric rank of a tristate value in the order n < m < y: n ↦ 0, m ↦ 1,
y ↦ 2. -/
def triRank : Tri → Nat
  | Tri.n => 0
  | Tri.m => 1
  | Tri.y => 2

/-- Modelled from the spec: `kconfiglib.tri_less` (the engine module is not
among the sources).  The spec fixes the tristate domain as "totally ordered
n < m < y"; `tri_less a b` decides whether `a` is strictly below `b` in that
order. -/
def tri_less (a b : Tri) : Bool :=
  decide (triRank a < triRank b)

/-- Modelled from the spec: conjunction on tristates is the minimum in the
order n < m < y (used only by the modelled expression evaluator). -/
def tri_min (a b : Tri) : Tri :=
  if triRank a ≤ triRank b then a else b

/-- Snapshot of what the engine reports for one symbol at the moment a test
loop visits it: whether it is a choice item (`sym.is_choice_item()`), its
current value (`sym.calc_value()`), and its lower/upper bounds
(`sym.get_lower_bound()` / `sym.get_upper_bound()`, `none` standing for
Python's `None`).  Bounds are recomputed by the engine between visits; a `Sym`
records the values the harness actually reads. -/
structure Sym where
  is_choice_item : Bool
  value : Tri
  lower_bound : Option Tri
  upper_bound : Option Tri
deriving DecidableEq, Repr, Fintype

/-- Body of the `for sym in conf` loop of `test_all_no` (kconfigtest.py lines
139-157): for a non-choice symbol, if `lower_bound` is not `None` and
`tri_less(lower_bound, sym.calc_value())`, the symbol's value is set to the
lower bound; otherwise the symbol is left untouched, and choice items are
never touched. -/
def allNoStep (s : Sym) : Sym :=
  if s.is_choice_item then s
  else
    match s.lower_bound with
    | none => s
    | some lb => if tri_less lb s.value then { s with value := lb } else s

/-- One full pass of the all-no fixed-point loop over the symbol collection:
every symbol is visited once and `allNoStep` applied to it. -/
def allNoPass (syms : List Sym) : List Sym :=
  syms.map allNoStep

/-- The `done` flag of `test_all_no`: a pass is final when it mutates no
symbol. -/
def allNoDone (syms : List Sym) : Bool :=
  allNoPass syms == syms

/-- Body of the `for sym in non_choice_syms` loop of `test_all_yes`
(kconfigtest.py lines 180-187): if `upper_bound` is not `None` and
`tri_less(sym.calc_value(), upper_bound)`, the symbol's value is raised to the
upper bound; otherwise it is left untouched. -/
def allYesStep (s : Sym) : Sym :=
  match s.upper_bound with
  | none => s
  | some ub => if tri_less s.value ub then { s with value := ub } else s

/-- The `non_choice_syms` list of `test_all_yes` (lines 172-173): all symbols
that are not choice items. -/
def non_choice_syms (syms : List Sym) : List Sym :=
  syms.filter (fun s => !s.is_choice_item)

/-- The non-choice phase of one all-yes pass: `allYesStep` applied to every
symbol of `non_choice_syms`. -/
def allYesPassNonChoice (syms : List Sym) : List Sym :=
  (non_choice_syms syms).map allYesStep

/-!
Snapshot comparator `equal_confs` (kconfigtest.py lines 460-476).  A snapshot
is the list of lines of a written configuration file; lines are embedded as
`List Char` so that every operation reduces in the kernel.
-/

/-- A line of a persisted configuration snapshot. -/
abbrev Line : Type := List Char

/-- Try to strip the prefix `p` off the line `l`, returning the rest. -/
def dropLead : List Char → List Char → Option (List Char)
  | [], l => some l
  | _ :: _, [] => none
  | p :: ps, c :: cs => if p = c then dropLead ps cs else none

/-- Word character in the sense of Python 2's regex `\w` without
`re.UNICODE`: `[a-zA-Z0-9_]`. -/
def isWordChar (c : Char) : Bool :=
  c.isAlpha || c.isDigit || c = '_'

/-- Python's `re.match(r"# CONFIG_(\w+) is not set", line)` as a Boolean:
`re.match` anchors at the start of the line only, so this holds exactly when
the line *begins with* `# CONFIG_`, followed by a nonempty maximal run of word
characters, followed by the text ` is not set` (anything may follow).  The
greedy `\w+` must stop at the first non-word character, so prefix matching
with the maximal word run is exactly the regex's semantics. -/
def matchUnset (line : Line) : Bool :=
  match dropLead ("# CONFIG_".toList) line with
  | none => false
  | some rest =>
    match rest.takeWhile isWordChar with
    | [] => false
    | _ :: _ => (dropLead (" is not set".toList) (rest.dropWhile isWordChar)).isSome

/-- Python's `line.startswith("#")`. -/
def startsHash (line : Line) : Bool :=
  match line with
  | [] => false
  | c :: _ => c = '#'

/-- The header-skipping loop of `equal_confs` (lines 469-474): the index `i`
reached when the loop breaks, i.e. the number of leading lines of the
reference snapshot that start with `#` and do not match the unset pattern. -/
def skipCount : List Line → Nat
  | [] => 0
  | line :: rest =>
    if !startsHash line || matchUnset line then 0 else skipCount rest + 1

/-- `equal_confs()` (lines 460-476): `l1` is the reference snapshot
(`.config`, written by the C implementation) and `l2` the candidate snapshot
(`._config`, written by kconfiglib).  The comparator skips the header of `l1`
only and then compares the remaining lines of `l1` with all of `l2`:
`return (l1[i:] == l2)`. -/
def equal_confs (l1 l2 : List Line) : Bool :=
  l1.drop (skipCount l1) == l2

/-- A line is skipped by the comparator's header loop iff it is a comment line
that does not match the unset pattern. -/
def skippable (line : Line) : Bool :=
  startsHash line && !matchUnset line

/-- Written from the spec's words, for comparison with the code: a line "of
the exact form" `# CONFIG_<name> is not set` — the whole line is the pattern,
with nothing following. -/
def matchUnsetExact (line : Line) : Bool :=
  match dropLead ("# CONFIG_".toList) line with
  | none => false
  | some rest =>
    match rest.takeWhile isWordChar with
    | [] => false
    | _ :: _ => rest.dropWhile isWordChar = (" is not set".toList)

/-- Written from the spec's words, for comparison with the code: the
header-skipping count under the exact-form reading of the unset pattern. -/
def skipCountSpec : List Line → Nat
  | [] => 0
  | line :: rest =>
    if !startsHash line || matchUnsetExact line then 0 else skipCountSpec rest + 1

/-- Written from the spec's words, for comparison with the code: the
comparator under the exact-form reading of the unset pattern. -/
def equal_confs_spec (l1 l2 : List Line) : Bool :=
  l1.drop (skipCountSpec l1) == l2

/-!
The process-wide pass/fail ledger (kconfigtest.py lines 478-485): a single
module-level Boolean `_all_ok`, initialised to `True`, set to `False` by
`fail()` and read by `all_ok()`.
-/

/-- Initial value of the module-level `_all_ok` flag: `True`. -/
def initial_all_ok : Bool := true

/-- The body of `fail()`: it ignores the current flag and stores `False`
(`_all_ok = False`); it raises nothing and returns nothing else. -/
def fail (_ok : Bool) : Bool := false

/-- The body of `all_ok()`: it returns the current flag unchanged. -/
def all_ok (ok : Bool) : Bool := ok

/-- The only two operations the program ever performs on the ledger: a call
to `fail()` and a read through `all_ok()`. -/
inductive LedgerOp where
  | fail_op
  | query_op
deriving DecidableEq, Repr

/-- Effect of one ledger operation on the flag: `fail()` overwrites it with
`False`; `all_ok()` reads it and leaves it unchanged. -/
def applyOp (ok : Bool) : LedgerOp → Bool
  | LedgerOp.fail_op => fail ok
  | LedgerOp.query_op => all_ok ok

/-- The flag after an arbitrary sequence of ledger operations, starting from
the initial `True`. -/
def ledgerAfter (ops : List LedgerOp) : Bool :=
  ops.foldl applyOp initial_all_ok

/-- Recording one trial verdict on the ledger: `fail()` is called exactly on
the FAIL branch, the OK branch leaves the flag alone. -/
def record_verdict (ok : Bool) (v : Bool) : Bool :=
  if v then ok else fail ok

/-- The final `_all_ok` flag after a whole run whose trials produced the
given list of verdicts, in order. -/
def final_all_ok (verdicts : List Bool) : Bool :=
  verdicts.foldl record_verdict initial_all_ok

/-!
The defconfig cross-validation orchestration (`test_defconfig`, lines
365-438, driven per architecture by `run_tests`, lines 51-85).  A trial for
one (architecture, defconfig) pair loads the defconfig, writes both
snapshots, runs the reference tool and compares; all that the orchestration
state observes of a trial is its verdict, so the external machinery is
abstracted into a verdict oracle `verdict arch defconfig`.
-/

/-- One recorded trial outcome of the defconfig scenario: the progress line
printed for the (architecture, defconfig) pair together with its verdict
(plus, on failure, the timestamped `test_defconfig_fails` log entry). -/
structure TrialResult where
  arch : String
  defconfig : String
  passed : Bool
deriving DecidableEq, Repr

/-- Orchestration state threaded through the defconfig scenario: the recorded
trial results in order, the global `nconfigs` counter, and the module-level
`_all_ok` flag. -/
structure OrchState where
  results : List TrialResult
  nconfigs : Nat
  all_ok_flag : Bool
deriving DecidableEq, Repr

/-- Body of the `for defconfig in defconfigs` loop of `test_defconfig`
(lines 410-438): bump `nconfigs`, run the trial, record its result, and call
`fail()` exactly when the comparison failed. -/
def run_trial (verdict : String → String → Bool) (st : OrchState)
    (arch defcfg : String) : OrchState :=
  let v := verdict arch defcfg
  { results := st.results ++ [⟨arch, defcfg, v⟩],
    nconfigs := st.nconfigs + 1,
    all_ok_flag := if v then st.all_ok_flag else fail st.all_ok_flag }

/-- `test_defconfig(conf)` for one architecture: one trial per collected
defconfig, in order.  (The harness re-collects the same defconfig list from
the `arch/` tree on every call; the list is passed in once here.) -/
def test_defconfig (verdict : String → String → Bool) (defconfigs : List String)
    (arch : String) (st : OrchState) : OrchState :=
  defconfigs.foldl (fun st d => run_trial verdict st arch d) st

/-- The defconfig scenario of `run_tests` (lines 60-68 with
`test_fn = test_defconfig`): `test_defconfig` is invoked once per
architecture, threading the orchestration state, starting from no recorded
results, `nconfigs = 0` and `_all_ok = True`. -/
def run_defconfig_scenario (verdict : String → String → Bool)
    (archs defconfigs : List String) : OrchState :=
  archs.foldl (fun st a => test_defconfig verdict defconfigs a st)
    ⟨[], 0, initial_all_ok⟩

/-- The full (architecture × defconfig) enumeration the scenario performs. -/
def trial_pairs (archs defconfigs : List String) : List (String × String) :=
  archs.flatMap (fun a => defconfigs.map (fun d => (a, d)))

/-!
The syntax-error scenario of `test_call_all` (lines 233-244).  The engine's
expression evaluator `conf.eval` and its `Kconfig_Syntax_Error` exception
live in the kconfiglib module, which is not among the sources; the evaluator
below is modelled from the spec, which requires the engine to fail "with a
syntax-error condition when given a malformed logical expression to
evaluate", distinctly from ordinary results.  Only conjunctions of tristate
literals and symbol names are needed by the scenario's two inputs.
-/

/-- Outcome of `conf.eval`: a tristate result, or the distinct
`Kconfig_Syntax_Error` condition. -/
inductive EvalResult where
  | val (t : Tri)
  | parse_error
deriving DecidableEq, Repr

/-- Split a character list into space-separated tokens (accumulator holds the
current token reversed). -/
def splitWordsAux (cur : List Char) : List Char → List (List Char)
  | [] => if cur.isEmpty then [] else [cur.reverse]
  | c :: cs =>
    if c = ' ' then
      if cur.isEmpty then splitWordsAux [] cs
      else cur.reverse :: splitWordsAux [] cs
    else splitWordsAux (c :: cur) cs

/-- Modelled from the spec: evaluate one token of a logical expression — a
tristate literal, or a symbol name looked up in the configuration; an
operator token is not a term. -/
def eval_term (env : List Char → Tri) (t : List Char) : Option Tri :=
  if t = "y".toList then some Tri.y
  else if t = "m".toList then some Tri.m
  else if t = "n".toList then some Tri.n
  else if t = "&&".toList || t = "||".toList || t = "!".toList then none
  else some (env t)

/-- Modelled from the spec: evaluate a conjunction `term (&& term)*`; any
token sequence not of that shape is malformed. -/
def eval_conj (env : List Char → Tri) : List (List Char) → Option Tri
  | [] => none
  | [t] => eval_term env t
  | t :: op :: rest =>
    if op = "&&".toList then
      match eval_term env t, eval_conj env rest with
      | some a, some b => some (tri_min a b)
      | _, _ => none
    else none

/-- Modelled from the spec: `conf.eval(s)` for the conjunction fragment the
scenario exercises — a malformed expression yields the distinct syntax-error
condition, a well-formed one a tristate value. -/
def eval_expr (env : List Char → Tri) (s : String) : EvalResult :=
  match eval_conj env (splitWordsAux [] s.toList) with
  | some t => EvalResult.val t
  | none => EvalResult.parse_error

/-- The harness logic around the malformed expression (lines 236-244): set
`caught_exception` iff the evaluation raised `Kconfig_Syntax_Error`, and call
`fail()` exactly when it was not raised. -/
def syntax_scenario_flag (res : EvalResult) (ok : Bool) : Bool :=
  match res with
  | EvalResult.parse_error => ok
  | EvalResult.val _ => fail ok

/-!
Abstract pass dynamics for the convergence claim.  One full pass of either
fixed-point loop is a function on the vector of symbol values; the
collaborator assumption of the claim says each pass either changes nothing or
moves at least one value strictly down (all-no) / up (all-yes) and no value
the other way.
-/

/-- Total rank of a value vector (the termination measure of the all-no
loop). -/
def stateMeasure (vals : List Tri) : Nat :=
  (vals.map triRank).sum

/-- Collaborator assumption for the all-no loop: every pass either mutates
nothing or lowers at least one symbol's value and raises none. -/
def LowerStep (pass : List Tri → List Tri) : Prop :=
  ∀ t, pass t = t ∨
    (List.Forall₂ (fun a b => triRank a ≤ triRank b) (pass t) t ∧ pass t ≠ t)

/-- Collaborator assumption for the all-yes loop: every pass either mutates
nothing or raises at least one symbol's value and lowers none. -/
def RaiseStep (pass : List Tri → List Tri) : Prop :=
  ∀ t, pass t = t ∨
    (List.Forall₂ (fun a b => triRank b ≤ triRank a) (pass t) t ∧ pass t ≠ t)

/-- The value vector of a symbol collection. -/
def valuesOf (syms : List Sym) : List Tri :=
  syms.map (fun s => s.value)

/-- A one-symbol pass dynamics satisfying the collaborator assumption under
which the single symbol is lowered one lattice step per pass: y, then m,
then n. -/
def cexStep : List Tri → List Tri
  | [Tri.y] => [Tri.m]
  | [Tri.m] => [Tri.n]
  | t => t

/-!
Helper lemmas about the comparator's header skipping.
-/

theorem skipCount_eq_takeWhile (l : List Line) :
    skipCount l = (l.takeWhile skippable).length := by
  induction l with
  | nil => rfl
  | cons x xs ih =>
    cases hs : startsHash x <;> cases hm : matchUnset x <;>
      simp [skipCount, List.takeWhile_cons, skippable, hs, hm, ih]

theorem drop_skipCount_eq_dropWhile (l : List Line) :
    l.drop (skipCount l) = l.dropWhile skippable := by
  induction l with
  | nil => rfl
  | cons x xs ih =>
    cases hs : startsHash x <;> cases hm : matchUnset x <;>
      simp [skipCount, List.dropWhile_cons, skippable, hs, hm, ih]

/-- C3: the claim that the snapshot comparator is symmetric is false on the
code: `equal_confs` skips the header of its first argument only, so a
header-carrying reference compares equal to a bare candidate while the swap
compares unequal. -/
theorem C3_counterexample :
    equal_confs ["# header".toList, "FOO=y".toList] ["FOO=y".toList] = true
    ∧ equal_confs ["FOO=y".toList] ["# header".toList, "FOO=y".toList] = false := by
  decide

/-- C3 (amended): the comparator strips leading header lines from its first
argument (the reference snapshot) only, so swapping the two snapshots can
change the verdict; the verdict is symmetric whenever the header skip leaves
both snapshots unchanged, i.e. neither begins with a comment line that fails
the unset pattern. -/
theorem C3_symmetric_without_header (l1 l2 : List Line)
    (h1 : skipCount l1 = 0) (h2 : skipCount l2 = 0) :
    equal_confs l1 l2 = equal_confs l2 l1 := by
  apply Bool.eq_iff_iff.mpr
  simp only [equal_confs, h1, h2, List.drop_zero, beq_iff_eq]
  exact ⟨Eq.symm, Eq.symm⟩

/-- C3 witness: two headerless one-line snapshots; the amended symmetry
applies to them. -/
theorem C3_witness :
    skipCount ["FOO=y".toList] = 0 ∧ skipCount ["BAR=y".toList] = 0
    ∧ equal_confs ["FOO=y".toList] ["BAR=y".toList]
      = equal_confs ["BAR=y".toList] ["FOO=y".toList] :=
  ⟨by decide, by decide,
    C3_symmetric_without_header ["FOO=y".toList] ["BAR=y".toList]
      (by decide) (by decide)⟩

/-- C4: the claim that skipping stops only at a line of the *exact form*
`# CONFIG_<name> is not set` is false on the code: `re.match` is a prefix
match, so the comment line `# CONFIG_FOO is not settled` also stops the
skipping.  On the reference snapshot `["# CONFIG_FOO is not settled",
"BAR=y"]` against candidate `["BAR=y"]` the exact-form reading of the claim
reports equal while the code reports unequal. -/
theorem C4_counterexample :
    equal_confs_spec
      ["# CONFIG_FOO is not settled".toList, "BAR=y".toList] ["BAR=y".toList] = true
    ∧ equal_confs
      ["# CONFIG_FOO is not settled".toList, "BAR=y".toList] ["BAR=y".toList] = false := by
  decide

/-- C4 (amended): the comparator skips leading lines of the reference
snapshot exactly while they are comment lines that do not *begin with* the
pattern `# CONFIG_<name> is not set` (a prefix match, so a comment extending
the pattern also stops the skipping); it stops at the first non-comment line
or first line beginning with that pattern, and then returns equal iff the
remaining reference lines are identical, line for line and in order, to the
whole candidate; in particular the 3-line ordinary-comment header example of
the claim is reported equal. -/
theorem C4_header_skip :
    (∀ l : List Line, skipCount l = (l.takeWhile skippable).length)
    ∧ (∀ l1 l2 : List Line, equal_confs l1 l2 = true ↔ l1.dropWhile skippable = l2)
    ∧ equal_confs
        ["# a".toList, "# b".toList, "# c".toList,
         "# CONFIG_FOO is not set".toList, "BAR=y".toList]
        ["# CONFIG_FOO is not set".toList, "BAR=y".toList] = true := by
  refine ⟨skipCount_eq_takeWhile, fun l1 l2 => ?_, by decide⟩
  simp only [equal_confs, drop_skipCount_eq_dropWhile, beq_iff_eq]

/-- C4 witness: the skip characterization applied to a concrete reference
snapshot. -/
theorem C4_witness :
    skipCount ["# x".toList, "A=y".toList]
      = (["# x".toList, "A=y".toList].takeWhile skippable).length :=
  C4_header_skip.1 ["# x".toList, "A=y".toList]

/-!
Claims about the per-symbol mutation rule of the two fixed-point loops.
-/

/-- C1: the claim is false on the code: `test_all_no` lowers a symbol to its
lower bound when the lower bound is strictly *less* than the current value
(`tri_less(lower_bound, sym.calc_value())`), not strictly greater.  The
non-choice symbol with value y and lower bound n is mutated although its
lower bound is not strictly greater than its value. -/
theorem C1_counterexample :
    allNoStep ⟨false, Tri.y, some Tri.n, none⟩ ≠ ⟨false, Tri.y, some Tri.n, none⟩
    ∧ (⟨false, Tri.y, some Tri.n, none⟩ : Sym).lower_bound = some Tri.n
    ∧ tri_less (⟨false, Tri.y, some Tri.n, none⟩ : Sym).value Tri.n = false := by
  decide

/-- C1 (amended): in every pass of the all-no fixed-point loop, a symbol not
belonging to a choice is set to its lower bound exactly when a lower bound is
defined and that lower bound is strictly *less* than the symbol's current
value in the order n < m < y; no other symbol (a choice item, or a symbol
whose condition fails) is mutated, and the pass applies exactly this rule to
each position of the collection. -/
theorem C1_allno_rule :
    (∀ s : Sym, allNoStep s ≠ s ↔
      s.is_choice_item = false ∧ ∃ lb, s.lower_bound = some lb ∧ tri_less lb s.value = true)
    ∧ (∀ (s : Sym) (lb : Tri), s.lower_bound = some lb → tri_less lb s.value = true →
        s.is_choice_item = false → allNoStep s = { s with value := lb })
    ∧ (∀ s : Sym, s.is_choice_item = true → allNoStep s = s)
    ∧ (∀ (syms : List Sym) (i : Nat), (allNoPass syms)[i]? = (syms[i]?).map allNoStep) := by
  refine ⟨by decide, by decide, by decide, fun syms i => ?_⟩
  simp [allNoPass]

/-- C1 witness: a non-choice symbol at value y with lower bound n is lowered
to n. -/
theorem C1_witness :
    tri_less Tri.n Tri.y = true
    ∧ allNoStep ⟨false, Tri.y, some Tri.n, some Tri.y⟩
      = ⟨false, Tri.n, some Tri.n, some Tri.y⟩ :=
  ⟨by decide,
    C1_allno_rule.2.1 ⟨false, Tri.y, some Tri.n, some Tri.y⟩ Tri.n rfl (by decide) rfl⟩

/-- C2: the claim is false on the code: `test_all_yes` raises a symbol to its
upper bound when the current value is strictly less than the upper bound
(`tri_less(sym.calc_value(), upper_bound)`), i.e. when the upper bound is
strictly *greater* than the current value, not strictly less.  The non-choice
symbol with value n and upper bound y is mutated although its upper bound is
not strictly less than its value. -/
theorem C2_counterexample :
    allYesStep ⟨false, Tri.n, none, some Tri.y⟩ ≠ ⟨false, Tri.n, none, some Tri.y⟩
    ∧ (⟨false, Tri.n, none, some Tri.y⟩ : Sym).upper_bound = some Tri.y
    ∧ tri_less Tri.y (⟨false, Tri.n, none, some Tri.y⟩ : Sym).value = false := by
  decide

/-- C2 (amended): in every pass of the all-yes fixed-point loop, a symbol not
belonging to a choice is set to its upper bound exactly when an upper bound
is defined and that upper bound is strictly *greater* than the symbol's
current value in the order n < m < y; the loop ranges exactly over the
symbols that are not choice items. -/
theorem C2_allyes_rule :
    (∀ s : Sym, s.is_choice_item = false →
      ((allYesStep s ≠ s ↔
          ∃ ub, s.upper_bound = some ub ∧ tri_less s.value ub = true)
        ∧ ∀ ub, s.upper_bound = some ub → tri_less s.value ub = true →
            allYesStep s = { s with value := ub }))
    ∧ (∀ (syms : List Sym) (s : Sym),
        s ∈ non_choice_syms syms ↔ s ∈ syms ∧ s.is_choice_item = false) := by
  refine ⟨by decide, fun syms s => ?_⟩
  simp [non_choice_syms, List.mem_filter]

/-- C2 witness: a non-choice symbol at value n with upper bound y is raised
to y. -/
theorem C2_witness :
    tri_less Tri.n Tri.y = true
    ∧ allYesStep ⟨false, Tri.n, none, some Tri.y⟩
      = ⟨false, Tri.y, none, some Tri.y⟩ :=
  ⟨by decide,
    (C2_allyes_rule.1 ⟨false, Tri.n, none, some Tri.y⟩ rfl).2 Tri.y rfl (by decide)⟩

/-!
Convergence of the fixed-point loops (claim C7).
-/

theorem stateMeasure_nil : stateMeasure [] = 0 := rfl

theorem stateMeasure_cons (x : Tri) (l : List Tri) :
    stateMeasure (x :: l) = triRank x + stateMeasure l := by
  simp [stateMeasure]

theorem stateMeasure_le_twice_length (l : List Tri) :
    stateMeasure l ≤ 2 * l.length := by
  induction l with
  | nil => simp [stateMeasure]
  | cons x xs ih =>
    have hx : triRank x ≤ 2 := by cases x <;> decide
    rw [stateMeasure_cons]
    simp only [List.length_cons]
    omega

theorem stateMeasure_le_of_forall2 {a b : List Tri}
    (h : List.Forall₂ (fun u w => triRank u ≤ triRank w) a b) :
    stateMeasure a ≤ stateMeasure b := by
  induction h with
  | nil => exact Nat.le_refl _
  | cons hxy _ ih =>
    rw [stateMeasure_cons, stateMeasure_cons]
    omega

theorem stateMeasure_lt_of_forall2 {a b : List Tri}
    (h : List.Forall₂ (fun u w => triRank u ≤ triRank w) a b) (hne : a ≠ b) :
    stateMeasure a < stateMeasure b := by
  induction h with
  | nil => exact absurd rfl hne
  | @cons x z as bs hxy htail ih =>
    by_cases hx : x = z
    · subst hx
      have hne' : as ≠ bs := fun hh => hne (by rw [hh])
      have := ih hne'
      rw [stateMeasure_cons, stateMeasure_cons]
      omega
    · have hlt : triRank x < triRank z := by
        have : ∀ u w : Tri, triRank u ≤ triRank w → u ≠ w → triRank u < triRank w := by
          decide
        exact this x z hxy hx
      have := stateMeasure_le_of_forall2 htail
      rw [stateMeasure_cons, stateMeasure_cons]
      omega

theorem iterate_fixed_of_measure {α : Type} (f : α → α) (μ : α → Nat)
    (h : ∀ a, f a = a ∨ μ (f a) < μ a) :
    ∀ (k : Nat) (a : α), μ a ≤ k → f (f^[k] a) = f^[k] a := by
  intro k
  induction k with
  | zero =>
    intro a ha
    rcases h a with h1 | h2
    · simpa using h1
    · omega
  | succ k ih =>
    intro a ha
    rcases h a with h1 | h2
    · rw [Function.iterate_fixed h1]
      exact h1
    · have hk : μ (f a) ≤ k := by omega
      rw [Function.iterate_succ_apply]
      exact ih (f a) hk

theorem lowerStep_measure {pass : List Tri → List Tri} (h : LowerStep pass) :
    ∀ t, pass t = t ∨ stateMeasure (pass t) < stateMeasure t := by
  intro t
  rcases h t with h1 | ⟨h2, h3⟩
  · exact Or.inl h1
  · exact Or.inr (stateMeasure_lt_of_forall2 h2 h3)

theorem raiseStep_comeasure {pass : List Tri → List Tri} (h : RaiseStep pass) :
    ∀ t, pass t = t ∨
      2 * (pass t).length - stateMeasure (pass t)
        < 2 * t.length - stateMeasure t := by
  intro t
  rcases h t with h1 | ⟨h2, h3⟩
  · exact Or.inl h1
  · refine Or.inr ?_
    have hflip : List.Forall₂ (fun u w => triRank u ≤ triRank w) t (pass t) :=
      List.Forall₂.flip h2
    have hlt : stateMeasure t < stateMeasure (pass t) :=
      stateMeasure_lt_of_forall2 hflip (fun hh => h3 hh.symm)
    have hlen : (pass t).length = t.length := List.Forall₂.length_eq h2
    have hub : stateMeasure (pass t) ≤ 2 * (pass t).length :=
      stateMeasure_le_twice_length (pass t)
    omega

theorem forall2_map_map {r : Tri → Tri → Prop} {f g : Sym → Tri}
    (h : ∀ s, r (f s) (g s)) :
    ∀ l : List Sym, List.Forall₂ r (l.map f) (l.map g) := by
  intro l
  induction l with
  | nil => exact List.Forall₂.nil
  | cons x xs ih => exact List.Forall₂.cons (h x) ih

/-- Each pass of the all-no loop never raises any symbol's value. -/
theorem allNoPass_lowers (syms : List Sym) :
    List.Forall₂ (fun a b => triRank a ≤ triRank b)
      (valuesOf (allNoPass syms)) (valuesOf syms) := by
  have h : ∀ s : Sym, triRank (allNoStep s).value ≤ triRank s.value := by decide
  simpa [valuesOf, allNoPass, List.map_map, Function.comp] using
    forall2_map_map (r := fun a b => triRank a ≤ triRank b)
      (f := fun s => (allNoStep s).value) (g := fun s => s.value) h syms

/-- The non-choice phase of the all-yes loop never lowers any symbol's
value. -/
theorem allYesPass_raises (syms : List Sym) :
    List.Forall₂ (fun a b => triRank b ≤ triRank a)
      (valuesOf (allYesPassNonChoice syms)) (valuesOf (non_choice_syms syms)) := by
  have h : ∀ s : Sym, triRank s.value ≤ triRank (allYesStep s).value := by decide
  simpa [valuesOf, allYesPassNonChoice, List.map_map, Function.comp] using
    forall2_map_map (r := fun a b => triRank b ≤ triRank a)
      (f := fun s => (allYesStep s).value) (g := fun s => s.value) h
      (non_choice_syms syms)

/-- Shared by C7's counterexample and witness: the one-symbol dynamics that
lowers y to m and m to n satisfies the all-no collaborator assumption. -/
theorem cexStep_lower : LowerStep cexStep := by
  intro t
  match t with
  | [] => exact Or.inl rfl
  | [Tri.n] => exact Or.inl rfl
  | [Tri.m] =>
    exact Or.inr ⟨List.Forall₂.cons (by decide) List.Forall₂.nil, by decide⟩
  | [Tri.y] =>
    exact Or.inr ⟨List.Forall₂.cons (by decide) List.Forall₂.nil, by decide⟩
  | a :: b :: rest => exact Or.inl (by cases a <;> rfl)

/-- C7: the claim's pass bound is false: under the collaborator assumption a
single tristate symbol may be lowered in two separate passes (y to m, then m
to n), so the loop need not reach its fixed point within a number of passes
bounded by the number of symbols (here 1). -/
theorem C7_counterexample :
    LowerStep cexStep
    ∧ cexStep (cexStep^[[Tri.y].length] [Tri.y]) ≠ cexStep^[[Tri.y].length] [Tri.y] :=
  ⟨cexStep_lower, by decide⟩

/-- C7 (amended): both fixed-point algorithms terminate within a number of
full passes bounded by *twice* the number of symbols (each symbol can move at
most two steps in the three-valued lattice), under the collaborator
assumption that each pass which makes progress strictly lowers (all-no) or
raises (all-yes) at least one symbol's value and moves none the other way;
after at most `2·n` passes the state is a fixed point, so the next pass
mutates nothing and ends the loop.  The concrete passes of the harness
satisfy the assumption's direction: the all-no pass never raises a value and
the all-yes non-choice phase never lowers one. -/
theorem C7_convergence :
    (∀ pass : List Tri → List Tri, LowerStep pass →
      ∀ s : List Tri, pass (pass^[2 * s.length] s) = pass^[2 * s.length] s)
    ∧ (∀ pass : List Tri → List Tri, RaiseStep pass →
      ∀ s : List Tri, pass (pass^[2 * s.length] s) = pass^[2 * s.length] s)
    ∧ (∀ syms : List Sym,
        List.Forall₂ (fun a b => triRank a ≤ triRank b)
          (valuesOf (allNoPass syms)) (valuesOf syms))
    ∧ (∀ syms : List Sym,
        List.Forall₂ (fun a b => triRank b ≤ triRank a)
          (valuesOf (allYesPassNonChoice syms)) (valuesOf (non_choice_syms syms))) := by
  refine ⟨?_, ?_, allNoPass_lowers, allYesPass_raises⟩
  · intro pass h s
    exact iterate_fixed_of_measure pass stateMeasure (lowerStep_measure h)
      (2 * s.length) s (stateMeasure_le_twice_length s)
  · intro pass h s
    exact iterate_fixed_of_measure pass
      (fun t => 2 * t.length - stateMeasure t) (raiseStep_comeasure h)
      (2 * s.length) s
      (show 2 * s.length - stateMeasure s ≤ 2 * s.length from Nat.sub_le _ _)

/-- C7 witness: the one-symbol lowering dynamics reaches its fixed point
within 2·1 passes. -/
theorem C7_witness :
    LowerStep cexStep
    ∧ cexStep (cexStep^[2 * [Tri.y].length] [Tri.y])
      = cexStep^[2 * [Tri.y].length] [Tri.y] :=
  ⟨cexStep_lower, C7_convergence.1 cexStep cexStep_lower [Tri.y]⟩

/-!
Helper lemmas about the defconfig orchestration state.
-/

theorem test_defconfig_results (v : String → String → Bool) (ds : List String)
    (a : String) (st : OrchState) :
    (test_defconfig v ds a st).results
      = st.results ++ ds.map (fun d => ⟨a, d, v a d⟩) := by
  induction ds generalizing st with
  | nil => simp [test_defconfig]
  | cons d ds ih =>
    rw [test_defconfig, List.foldl_cons]
    rw [show (List.foldl (fun st d => run_trial v st a d) (run_trial v st a d) ds)
        = test_defconfig v ds a (run_trial v st a d) from rfl]
    rw [ih]
    simp [run_trial]

theorem test_defconfig_nconfigs (v : String → String → Bool) (ds : List String)
    (a : String) (st : OrchState) :
    (test_defconfig v ds a st).nconfigs = st.nconfigs + ds.length := by
  induction ds generalizing st with
  | nil => simp [test_defconfig]
  | cons d ds ih =>
    rw [test_defconfig, List.foldl_cons]
    rw [show (List.foldl (fun st d => run_trial v st a d) (run_trial v st a d) ds)
        = test_defconfig v ds a (run_trial v st a d) from rfl]
    rw [ih]
    simp [run_trial]
    omega

theorem test_defconfig_flag (v : String → String → Bool) (ds : List String)
    (a : String) (st : OrchState) :
    (test_defconfig v ds a st).all_ok_flag
      = (ds.map (fun d => v a d)).foldl record_verdict st.all_ok_flag := by
  induction ds generalizing st with
  | nil => simp [test_defconfig]
  | cons d ds ih =>
    rw [test_defconfig, List.foldl_cons]
    rw [show (List.foldl (fun st d => run_trial v st a d) (run_trial v st a d) ds)
        = test_defconfig v ds a (run_trial v st a d) from rfl]
    rw [ih]
    simp [run_trial, record_verdict]

theorem scenario_foldl_results (v : String → String → Bool) (ds : List String) :
    ∀ (archs : List String) (st : OrchState),
      (archs.foldl (fun st a => test_defconfig v ds a st) st).results
        = st.results ++ archs.flatMap (fun a => ds.map (fun d => ⟨a, d, v a d⟩)) := by
  intro archs
  induction archs with
  | nil => intro st; simp
  | cons a archs ih =>
    intro st
    rw [List.foldl_cons, ih, test_defconfig_results]
    simp

theorem run_scenario_results (v : String → String → Bool)
    (archs ds : List String) :
    (run_defconfig_scenario v archs ds).results
      = archs.flatMap (fun a => ds.map (fun d => ⟨a, d, v a d⟩)) := by
  rw [run_defconfig_scenario, scenario_foldl_results]
  simp

theorem scenario_foldl_nconfigs (v : String → String → Bool) (ds : List String) :
    ∀ (archs : List String) (st : OrchState),
      (archs.foldl (fun st a => test_defconfig v ds a st) st).nconfigs
        = st.nconfigs + archs.length * ds.length := by
  intro archs
  induction archs with
  | nil => intro st; simp
  | cons a archs ih =>
    intro st
    rw [List.foldl_cons, ih, test_defconfig_nconfigs]
    simp [List.length_cons, Nat.succ_mul]
    omega

theorem run_scenario_nconfigs (v : String → String → Bool)
    (archs ds : List String) :
    (run_defconfig_scenario v archs ds).nconfigs = archs.length * ds.length := by
  rw [run_defconfig_scenario, scenario_foldl_nconfigs]
  simp

theorem scenario_foldl_flag (v : String → String → Bool) (ds : List String) :
    ∀ (archs : List String) (st : OrchState),
      (archs.foldl (fun st a => test_defconfig v ds a st) st).all_ok_flag
        = (archs.flatMap (fun a => ds.map (fun d => v a d))).foldl
            record_verdict st.all_ok_flag := by
  intro archs
  induction archs with
  | nil => intro st; simp
  | cons a archs ih =>
    intro st
    rw [List.foldl_cons, ih, test_defconfig_flag]
    simp [List.foldl_append]

theorem run_scenario_flag (v : String → String → Bool) (archs ds : List String) :
    (run_defconfig_scenario v archs ds).all_ok_flag
      = final_all_ok ((trial_pairs archs ds).map (fun p => v p.1 p.2)) := by
  rw [run_defconfig_scenario, scenario_foldl_flag, final_all_ok]
  congr 1
  simp [trial_pairs, List.map_flatMap, List.map_map, Function.comp_def]

theorem results_length (v : String → String → Bool) (archs ds : List String) :
    (run_defconfig_scenario v archs ds).results.length
      = archs.length * ds.length := by
  rw [run_scenario_results]
  induction archs with
  | nil => simp
  | cons a archs ih =>
    simp only [List.flatMap_cons, List.length_append, List.length_map,
      List.length_cons, ih, Nat.succ_mul]
    omega

theorem filter_pair_map_eq_one (v : String → String → Bool) (A S : String)
    (ds : List String) (hD : ds.Nodup) (hS : S ∈ ds) :
    ((ds.map (fun d => (⟨A, d, v A d⟩ : TrialResult))).filter
      (fun r => r.arch == A && r.defconfig == S)).length = 1 := by
  induction ds with
  | nil => cases hS
  | cons d ds ih =>
    rcases List.nodup_cons.mp hD with ⟨hd, hD'⟩
    rcases List.mem_cons.mp hS with hSd | hS'
    · subst hSd
      have hzero : ((ds.map (fun d => (⟨A, d, v A d⟩ : TrialResult))).filter
          (fun r => r.arch == A && r.defconfig == S)).length = 0 := by
        rw [List.length_eq_zero, List.filter_eq_nil_iff]
        intro r hr
        rcases List.mem_map.mp hr with ⟨d', hd', rfl⟩
        simp only [Bool.and_eq_true, beq_iff_eq]
        rintro ⟨-, rfl⟩
        exact hd hd'
      simp [List.filter_cons, hzero]
    · have hdS : d ≠ S := fun hh => hd (hh ▸ hS')
      simp [List.filter_cons, hdS, ih hD' hS']

theorem filter_pair_map_eq_zero (v : String → String → Bool) (A S a : String)
    (ds : List String) (ha : a ≠ A) :
    ((ds.map (fun d => (⟨a, d, v a d⟩ : TrialResult))).filter
      (fun r => r.arch == A && r.defconfig == S)).length = 0 := by
  rw [List.length_eq_zero, List.filter_eq_nil_iff]
  intro r hr
  rcases List.mem_map.mp hr with ⟨d', _, rfl⟩
  simp [ha]

theorem filter_pair_flatMap_eq_zero (v : String → String → Bool) (A S : String)
    (ds : List String) :
    ∀ archs : List String, A ∉ archs →
      ((archs.flatMap (fun a => ds.map (fun d => (⟨a, d, v a d⟩ : TrialResult)))).filter
        (fun r => r.arch == A && r.defconfig == S)).length = 0 := by
  intro archs
  induction archs with
  | nil => intro _; rfl
  | cons a archs ih =>
    intro hA
    have ha : a ≠ A := fun hh => hA (hh ▸ List.mem_cons_self a archs)
    have hA' : A ∉ archs := fun hh => hA (List.mem_cons_of_mem a hh)
    simp only [List.flatMap_cons, List.filter_append, List.length_append,
      filter_pair_map_eq_zero v A S a ds ha, ih hA']

/-- C5: for every architecture A and defconfig snapshot S, the defconfig
scenario records exactly one trial result for the pair (A, S), and the total
trial count reported at the end (the `nconfigs` counter, which also equals
the number of recorded results) is the number of architectures times the
number of snapshots. -/
theorem C5_cross_validation (v : String → String → Bool)
    (archs ds : List String) (A S : String)
    (hA : archs.Nodup) (hD : ds.Nodup) (hAm : A ∈ archs) (hSm : S ∈ ds) :
    (((run_defconfig_scenario v archs ds).results.filter
        (fun r => r.arch == A && r.defconfig == S)).length = 1)
    ∧ (run_defconfig_scenario v archs ds).results.length
        = archs.length * ds.length
    ∧ (run_defconfig_scenario v archs ds).nconfigs
        = archs.length * ds.length := by
  refine ⟨?_, results_length v archs ds, run_scenario_nconfigs v archs ds⟩
  rw [run_scenario_results]
  induction archs with
  | nil => cases hAm
  | cons a archs ih =>
    rcases List.nodup_cons.mp hA with ⟨ha, hA'⟩
    rcases List.mem_cons.mp hAm with hAa | hAm'
    · rw [show a = A from hAa.symm] at ha ⊢
      simp only [List.flatMap_cons, List.filter_append, List.length_append,
        filter_pair_map_eq_one v A S ds hD hSm,
        filter_pair_flatMap_eq_zero v A S ds archs ha]
    · have haA : a ≠ A := fun hh => ha (hh ▸ hAm')
      simp only [List.flatMap_cons, List.filter_append, List.length_append,
        filter_pair_map_eq_zero v A S a ds haA, ih hA' hAm']

/-- C5 witness: two architectures and two snapshots yield four trials, one
per pair. -/
theorem C5_witness :
    (((run_defconfig_scenario (fun _ _ => true) ["a", "b"] ["x", "z"]).results.filter
        (fun r => r.arch == "a" && r.defconfig == "z")).length = 1)
    ∧ (run_defconfig_scenario (fun _ _ => true) ["a", "b"] ["x", "z"]).results.length
        = ["a", "b"].length * ["x", "z"].length
    ∧ (run_defconfig_scenario (fun _ _ => true) ["a", "b"] ["x", "z"]).nconfigs
        = ["a", "b"].length * ["x", "z"].length :=
  C5_cross_validation (fun _ _ => true) ["a", "b"] ["x", "z"] "a" "z"
    (by decide) (by decide) (by decide) (by decide)

/-- C6: a failing trial never aborts the run: even when the verdict for
(A, S) is a failure, every enumerated pair (A', S') still has its trial
result recorded, and processing one trial only appends its result, bumps the
counter, and (on failure) applies `fail()` to the process-wide flag — nothing
is raised, skipped or exited. -/
theorem C6_fail_soft (v : String → String → Bool) (archs ds : List String)
    (A S : String) (_hfail : v A S = false) :
    (∀ A' ∈ archs, ∀ S' ∈ ds,
      (⟨A', S', v A' S'⟩ : TrialResult) ∈ (run_defconfig_scenario v archs ds).results)
    ∧ (∀ (st : OrchState) (a d : String), v a d = false →
        (run_trial v st a d).results = st.results ++ [⟨a, d, false⟩]
        ∧ (run_trial v st a d).nconfigs = st.nconfigs + 1
        ∧ (run_trial v st a d).all_ok_flag = fail st.all_ok_flag) := by
  constructor
  · intro A' hA' S' hS'
    rw [run_scenario_results]
    exact List.mem_flatMap.mpr
      ⟨A', hA', List.mem_map.mpr ⟨S', hS', rfl⟩⟩
  · intro st a d hv
    refine ⟨?_, rfl, ?_⟩ <;> simp [run_trial, hv]

/-- C6 witness: with every verdict failing, both trials of a 1-architecture,
2-snapshot run are still recorded. -/
theorem C6_witness :
    (fun (_ _ : String) => false) "a" "x" = false
    ∧ (∀ A' ∈ ["a"], ∀ S' ∈ ["x", "z"],
        (⟨A', S', (fun (_ _ : String) => false) A' S'⟩ : TrialResult)
          ∈ (run_defconfig_scenario (fun _ _ => false) ["a"] ["x", "z"]).results) :=
  ⟨rfl, (C6_fail_soft (fun _ _ => false) ["a"] ["x", "z"] "a" "x" rfl).1⟩

theorem record_verdict_false_absorb (vs : List Bool) :
    vs.foldl record_verdict false = false := by
  induction vs with
  | nil => rfl
  | cons b vs ih =>
    rw [List.foldl_cons]
    have hb : record_verdict false b = false := by cases b <;> rfl
    rw [hb, ih]

theorem final_all_ok_true_iff (vs : List Bool) :
    (final_all_ok vs = true ↔ ∀ b ∈ vs, b = true) := by
  rw [final_all_ok, initial_all_ok]
  induction vs with
  | nil => simp
  | cons b vs ih =>
    cases b with
    | true =>
      rw [List.foldl_cons]
      simpa [record_verdict] using ih
    | false =>
      rw [List.foldl_cons]
      have : record_verdict true false = false := rfl
      rw [this, record_verdict_false_absorb]
      simp

/-- C8: the overall verdict of the run is read from the ledger only after the
fold over every enumerated trial: the final flag of the defconfig scenario is
exactly the fold of `record_verdict` over the verdict of every (architecture,
snapshot) pair, and `all_ok()` returns true iff every one of those verdicts
passed — i.e. the summary is failing iff at least one trial failed. -/
theorem C8_exit_status (v : String → String → Bool) (archs ds : List String) :
    (run_defconfig_scenario v archs ds).all_ok_flag
      = final_all_ok ((trial_pairs archs ds).map (fun p => v p.1 p.2))
    ∧ (all_ok (run_defconfig_scenario v archs ds).all_ok_flag = true
        ↔ ∀ p ∈ trial_pairs archs ds, v p.1 p.2 = true)
    ∧ (run_defconfig_scenario v archs ds).results.length
        = archs.length * ds.length := by
  refine ⟨run_scenario_flag v archs ds, ?_, results_length v archs ds⟩
  rw [all_ok, run_scenario_flag v archs ds]
  rw [final_all_ok_true_iff]
  constructor
  · intro h p hp
    exact h (v p.1 p.2) (List.mem_map.mpr ⟨p, hp, rfl⟩)
  · intro h b hb
    rcases List.mem_map.mp hb with ⟨p, hp, rfl⟩
    exact h p hp

/-- C8 witness: one failing trial among four makes the summary failing. -/
theorem C8_witness :
    all_ok (run_defconfig_scenario
        (fun a d => !(a == "b" && d == "z")) ["a", "b"] ["x", "z"]).all_ok_flag
      = true
    ↔ ∀ p ∈ trial_pairs ["a", "b"] ["x", "z"],
        (fun (a d : String) => !(a == "b" && d == "z")) p.1 p.2 = true :=
  (C8_exit_status (fun a d => !(a == "b" && d == "z")) ["a", "b"] ["x", "z"]).2.1

/-!
The process-wide pass/fail ledger invariant (claim C10) and the syntax-error
scenario (claim C9).
-/

theorem applyOp_false (op : LedgerOp) : applyOp false op = false := by
  cases op <;> rfl

theorem ledger_false_absorb (ops : List LedgerOp) :
    ops.foldl applyOp false = false := by
  induction ops with
  | nil => rfl
  | cons op ops ih => rw [List.foldl_cons, applyOp_false, ih]

theorem ledger_true_iff (ops : List LedgerOp) :
    (ops.foldl applyOp true = true ↔ LedgerOp.fail_op ∉ ops) := by
  induction ops with
  | nil => simp
  | cons op ops ih =>
    cases op with
    | fail_op =>
      rw [List.foldl_cons]
      have h1 : applyOp true LedgerOp.fail_op = false := rfl
      rw [h1, ledger_false_absorb]
      simp
    | query_op =>
      rw [List.foldl_cons]
      have h1 : applyOp true LedgerOp.query_op = true := rfl
      rw [h1]
      simpa using ih

/-- C10: the pass/fail ledger is monotone over the whole run: it starts in
the all-passed state; the only mutating operation, `fail()`, drives it to the
failed state regardless of its current value; once failed it can never return
to passing under any further sequence of the program's ledger operations; and
`all_ok()` reports overall success at the end iff no `fail()` was ever
recorded. -/
theorem C10_ledger_monotone :
    ledgerAfter [] = true
    ∧ (∀ b : Bool, fail b = false)
    ∧ (∀ ops more : List LedgerOp,
        ledgerAfter ops = false → ledgerAfter (ops ++ more) = false)
    ∧ (∀ ops : List LedgerOp,
        all_ok (ledgerAfter ops) = true ↔ LedgerOp.fail_op ∉ ops) := by
  refine ⟨rfl, fun b => rfl, ?_, ?_⟩
  · intro ops more h
    rw [ledgerAfter, List.foldl_append]
    rw [ledgerAfter] at h
    rw [h, ledger_false_absorb]
  · intro ops
    rw [all_ok, ledgerAfter, initial_all_ok]
    exact ledger_true_iff ops

/-- C10 witness: a failure recorded between two reads keeps the ledger failed
through the rest of the run. -/
theorem C10_witness :
    ledgerAfter [LedgerOp.query_op, LedgerOp.fail_op] = false
    ∧ ledgerAfter ([LedgerOp.query_op, LedgerOp.fail_op] ++ [LedgerOp.query_op])
        = false :=
  ⟨by decide,
    C10_ledger_monotone.2.2.1 [LedgerOp.query_op, LedgerOp.fail_op]
      [LedgerOp.query_op] (by decide)⟩

/-- C9: evaluating the malformed expression `y && && y` yields the engine's
distinct syntax-error condition for every configuration environment, while
`y && ARCH` yields an ordinary tristate value; and the `test_call_all`
harness records a failure on the ledger if and only if the syntax-error
condition was not raised. -/
theorem C9_syntax_error (env : List Char → Tri) :
    eval_expr env "y && && y" = EvalResult.parse_error
    ∧ (∃ t, eval_expr env "y && ARCH" = EvalResult.val t)
    ∧ (∀ r : EvalResult,
        (syntax_scenario_flag r initial_all_ok = false
          ↔ r ≠ EvalResult.parse_error)) := by
  refine ⟨rfl, ⟨_, rfl⟩, fun r => ?_⟩
  cases r <;> simp [syntax_scenario_flag, initial_all_ok, fail]

/-- C9 witness: the modelled evaluator at the constant-n environment. -/
theorem C9_witness :
    eval_expr (fun _ => Tri.n) "y && && y" = EvalResult.parse_error
    ∧ (∃ t, eval_expr (fun _ => Tri.n) "y && ARCH" = EvalResult.val t) :=
  ⟨(C9_syntax_error (fun _ => Tri.n)).1, (C9_syntax_error (fun _ => Tri.n)).2.1⟩

end Kconfigtest
